import Mathlib

/-
  Shallow embedding of the ConfessIt-V2 backend core
  (matchmaking / conversation state machine / message exchange /
  websocket broadcast / expiry sweeper), translated from
  backend/app/services/matchmaking_service.py,
  backend/app/services/conversation_service.py,
  backend/app/services/message_service.py,
  backend/app/websocket_manager.py and backend/app/routers/admin.py.

  Conventions:
  - datetimes are modelled as Int seconds (UTC);
  - Mongo ObjectIds are modelled as Nat; user Regnos as String;
  - a collection is a List of records; find_one is List.find?,
    update_one is an update of the first matching record;
  - raised HTTPExceptions become Except.error with a DomainError
    mirroring the HTTP status code used at the raise site;
  - external sinks (notifications, Supabase sync, Redis publish,
    logging) never raise in the Python code paths modelled here and
    carry no state the claims mention, so they are dropped.
-/

namespace ConfessIt

/-- Conversation lifecycle statuses used by the backend
(`pending`, `requested`, `accepted`, `rejected`, `expired`, `terminated`). -/
inductive ConvStatus where
  | pending
  | requested
  | accepted
  | rejected
  | expired
  | terminated
deriving DecidableEq, Repr

/-- Domain errors, mirroring the HTTP status codes raised in the services:
400 invalidInput, 404 notFound, 403 forbidden, 409 conflict, 410 gone,
429 tooManyRequests, 500 internalServerError. -/
inductive DomainError where
  | invalidInput
  | notFound
  | forbidden
  | conflict
  | gone
  | tooManyRequests
  | internalServerError
deriving DecidableEq, Repr

/-- MATCHMAKING_COOLDOWN_HOURS = 4, in seconds. -/
def MATCHMAKING_COOLDOWN_SECONDS : Int := 4 * 3600

/-- MATCH_EXPIRY_HOURS = 4, in seconds. -/
def MATCH_EXPIRY_SECONDS : Int := 4 * 3600

/-- The 4-hour window used by message_service.validate_conversation_participant
(timedelta(hours=4) from the conversation's createdAt). -/
def CONVERSATION_EXPIRY_SECONDS : Int := 4 * 3600

/-- A document of the UserDetails collection (fields the core touches). -/
structure UserRec where
  Regno : String
  Name : String
  gender : String
  isMatchmaking : Bool
  last_matchmaking_time : Option Int
deriving DecidableEq, Repr

/-- A document of the matches collection. -/
structure MatchRec where
  matchId : Nat
  user_1_regno : String
  user_2_regno : String
  created_at : Int
  expires_at : Int
deriving DecidableEq, Repr

/-- A document of the conversations collection. `isBlocked` models
`conversation.get("isBlocked", False)` (i.e. the default already applied). -/
structure Conversation where
  convId : Nat
  matchId : Nat
  initiatorId : String
  receiverId : String
  status : ConvStatus
  isBlocked : Bool
  createdAt : Int
  requestedAt : Option Int := none
  acceptedAt : Option Int := none
  terminatedAt : Option Int := none
  last_message_at : Option Int := none
  last_message_text : Option String := none
deriving DecidableEq, Repr

/-- A document of the messages collection, as written by
MessageService.send_message. -/
structure Message where
  msgId : Nat
  conversation_id : Nat
  sender_id : String
  receiver_id : String
  text : String
  timestamp : Int
  read : Bool
deriving DecidableEq, Repr

/-- A document of the message_reports collection, as written by
MessageService.report_message. -/
structure MessageReport where
  reportId : Nat
  message_id : Nat
  conversation_id : Nat
  reporter_id : String
  reported_user_id : String
  reason : String
  reported_at : Int
  status : String
deriving DecidableEq, Repr

/-- The Mongo database: the five collections the core touches. -/
structure DB where
  user_details : List UserRec
  matchesCol : List MatchRec
  conversations : List Conversation
  messages : List Message
  message_reports : List MessageReport
deriving DecidableEq, Repr

/-- db["conversations"].find_one({"_id": ObjectId(conversation_id)}). -/
def findConversation (db : DB) (cid : Nat) : Option Conversation :=
  db.conversations.find? (fun c => c.convId == cid)

/-- db.matches.find_one({"_id": match_id}). -/
def findMatch (db : DB) (mid : Nat) : Option MatchRec :=
  db.matchesCol.find? (fun m => m.matchId == mid)

/-- db["messages"].find_one({"_id": ObjectId(message_id)}). -/
def findMessage (db : DB) (mid : Nat) : Option Message :=
  db.messages.find? (fun m => m.msgId == mid)

/-- db.conversations.find_one({"matchId": match_id})
(conversation_service.get_conversation_by_match_id). -/
def get_conversation_by_match_id (convs : List Conversation) (mid : Nat) :
    Option Conversation :=
  convs.find? (fun c => c.matchId == mid)

/-- update_one on conversations filtered by _id: patch the first record
with the given convId. -/
def updateConvById : List Conversation → Nat → (Conversation → Conversation) →
    List Conversation
  | [], _, _ => []
  | c :: rest, cid, f =>
      if c.convId = cid then f c :: rest else c :: updateConvById rest cid f

/-- update_one on matches filtered by _id: patch the first record
with the given matchId. -/
def updateMatchById : List MatchRec → Nat → (MatchRec → MatchRec) →
    List MatchRec
  | [], _, _ => []
  | m :: rest, mid, f =>
      if m.matchId = mid then f m :: rest else m :: updateMatchById rest mid f

/-
  ## Message Exchange (services/message_service.py)
-/

/-- The checks validate_conversation_participant performs once the
conversation document has been found: participant, status == accepted,
and the 4-hour expiry from createdAt (each raising 403). -/
def validateConvChecks (conversation : Conversation) (user_regno : String)
    (now : Int) : Except DomainError Conversation :=
  if ¬ (conversation.initiatorId = user_regno ∨
        conversation.receiverId = user_regno) then
    .error .forbidden
  else if conversation.status ≠ .accepted then
    .error .forbidden
  else if now > conversation.createdAt + CONVERSATION_EXPIRY_SECONDS then
    .error .forbidden
  else
    .ok conversation

/-- MessageService.validate_conversation_participant: resolve the
conversation (404 when absent) and run the participant / status / expiry
checks. The block check is deliberately absent here (see the source
comment: reading stays allowed while blocked). -/
def validate_conversation_participant (db : DB) (cid : Nat)
    (user_regno : String) (now : Int) : Except DomainError Conversation :=
  match findConversation db cid with
  | none => .error .notFound
  | some conversation => validateConvChecks conversation user_regno now

/-- MessageService.send_message: validate participant/status/expiry, then
reject when isBlocked (403), compute the receiver as the other participant,
insert the message with read = false, update the conversation's
last-message preview, and return the message. The fresh Mongo _id is
modelled as the current length of the messages collection. -/
def send_message (db : DB) (cid : Nat) (sender : UserRec) (text : String)
    (now : Int) : Except DomainError (DB × Message) :=
  match validate_conversation_participant db cid sender.Regno now with
  | .error e => .error e
  | .ok conversation =>
    if conversation.isBlocked then
      .error .forbidden
    else
      let receiver_id :=
        if conversation.initiatorId = sender.Regno then conversation.receiverId
        else conversation.initiatorId
      let message : Message :=
        { msgId := db.messages.length
          conversation_id := cid
          sender_id := sender.Regno
          receiver_id := receiver_id
          text := text
          timestamp := now
          read := false }
      let db' : DB :=
        { db with
          messages := db.messages ++ [message]
          conversations :=
            updateConvById db.conversations cid
              (fun c => { c with
                last_message_at := some now
                last_message_text := some (text.take 100) }) }
      .ok (db', message)

/-- The $set of the update_many in get_messages, applied pointwise:
flip read on the fetching user's unread messages of this conversation. -/
def markRead (cid : Nat) (user_regno : String) (m : Message) : Message :=
  if m.conversation_id = cid ∧ m.receiver_id = user_regno ∧ m.read = false then
    { m with read := true }
  else m

/-- Insertion step for the ascending sort("timestamp", 1) of get_messages. -/
def insertByTimestamp (m : Message) : List Message → List Message
  | [] => [m]
  | x :: xs =>
      if m.timestamp < x.timestamp then m :: x :: xs
      else x :: insertByTimestamp m xs

/-- The cursor sort("timestamp", 1) of get_messages. -/
def sortByTimestamp : List Message → List Message
  | [] => []
  | x :: xs => insertByTimestamp x (sortByTimestamp xs)

/-- MessageService.get_messages: validate participant/status/expiry, fetch
the conversation's messages oldest-first capped at limit, then update_many
marking every unread message addressed to the fetching user as read. -/
def get_messages (db : DB) (cid : Nat) (user : UserRec) (now : Int)
    (limit : Nat) : Except DomainError (DB × List Message) :=
  match validate_conversation_participant db cid user.Regno now with
  | .error e => .error e
  | .ok _ =>
    let fetched :=
      (sortByTimestamp (db.messages.filter
        (fun m => m.conversation_id == cid))).take limit
    let db' : DB :=
      { db with messages := db.messages.map (markRead cid user.Regno) }
    .ok (db', fetched)

/-- The duplicate-report lookup of report_message:
find_one({"message_id": ..., "reporter_id": ...}) is not none. -/
def hasReport (db : DB) (mid : Nat) (reporter : String) : Bool :=
  db.message_reports.any
    (fun r => r.message_id == mid && r.reporter_id == reporter)

/-- MessageService.report_message: 404 when the message is missing, 403
unless the reporter is the receiver, 403 unless the owning conversation
exists and is accepted, 409 on a duplicate (message, reporter) report,
else persist a pending report. -/
def report_message (db : DB) (mid : Nat) (reporter : UserRec) (reason : String)
    (now : Int) : Except DomainError (DB × MessageReport) :=
  match findMessage db mid with
  | none => .error .notFound
  | some message =>
    if message.receiver_id ≠ reporter.Regno then
      .error .forbidden
    else
      match findConversation db message.conversation_id with
      | none => .error .forbidden
      | some conversation =>
        if conversation.status ≠ .accepted then
          .error .forbidden
        else if hasReport db mid reporter.Regno then
          .error .conflict
        else
          let report : MessageReport :=
            { reportId := db.message_reports.length
              message_id := mid
              conversation_id := message.conversation_id
              reporter_id := reporter.Regno
              reported_user_id := message.sender_id
              reason := reason
              reported_at := now
              status := "pending" }
          .ok ({ db with message_reports := db.message_reports ++ [report] },
               report)

/-
  ## Matchmaking Engine (services/matchmaking_service.py)
-/

/-- The status dictionary returned by check_matchmaking_cooldown_service:
either cooldown (with the remaining seconds) or eligible. -/
inductive CooldownResult where
  | cooldown (remaining : Int)
  | eligible
deriving DecidableEq, Repr

/-- check_matchmaking_cooldown_service: a pure per-user timestamp gate.
Cooldown iff last_matchmaking_time is set and now - it < 4h (strict). -/
def check_matchmaking_cooldown_service (current_user : UserRec) (now : Int) :
    CooldownResult :=
  match current_user.last_matchmaking_time with
  | some t =>
      if now - t < MATCHMAKING_COOLDOWN_SECONDS then
        .cooldown (MATCHMAKING_COOLDOWN_SECONDS - (now - t))
      else .eligible
  | none => .eligible

/-- The candidate query of find_match_service:
Regno != self, gender != self.gender, isMatchmaking = true. -/
def matchQuery (current_user : UserRec) (v : UserRec) : Bool :=
  v.Regno != current_user.Regno &&
  v.gender != current_user.gender &&
  v.isMatchmaking

/-- db["UserDetails"].update_one({"Regno": regno},
{"$set": {"last_matchmaking_time": now}}): patch the first record
with the given Regno. -/
def stampFirstUser : List UserRec → String → Int → List UserRec
  | [], _, _ => []
  | v :: rest, regno, now =>
      if v.Regno = regno then
        { v with last_matchmaking_time := some now } :: rest
      else v :: stampFirstUser rest regno now

/-- The payload find_match_service returns on success (the fields the
claims mention). -/
structure FindMatchOutcome where
  matched_regno : String
  match_id : Nat
  expires_at : Int
deriving DecidableEq, Repr

/-- find_match_service: re-check the cooldown (429 when still cooling
down); filter candidates; on an empty pool stamp last_matchmaking_time
and fail 404; otherwise pick a candidate ($sample, modelled by the free
index pick), insert the Match (expires_at = now + 4h), stamp the
initiator's last_matchmaking_time, and insert a pending Conversation.
Fresh ObjectIds are modelled as current collection lengths. -/
def find_match_service (current_user : UserRec) (db : DB) (now : Int)
    (pick : Nat) : DB × Except DomainError FindMatchOutcome :=
  match check_matchmaking_cooldown_service current_user now with
  | .cooldown _ => (db, .error .tooManyRequests)
  | .eligible =>
    match db.user_details.filter (matchQuery current_user) with
    | [] =>
        ({ db with
           user_details := stampFirstUser db.user_details current_user.Regno now },
         .error .notFound)
    | c :: cs =>
        let cands := c :: cs
        let matched := cands.getD (pick % cands.length) c
        let mid := db.matchesCol.length
        let newMatch : MatchRec :=
          { matchId := mid
            user_1_regno := current_user.Regno
            user_2_regno := matched.Regno
            created_at := now
            expires_at := now + MATCH_EXPIRY_SECONDS }
        let newConv : Conversation :=
          { convId := db.conversations.length
            matchId := mid
            initiatorId := current_user.Regno
            receiverId := matched.Regno
            status := .pending
            isBlocked := false
            createdAt := now }
        ({ db with
           matchesCol := db.matchesCol ++ [newMatch]
           user_details := stampFirstUser db.user_details current_user.Regno now
           conversations := db.conversations ++ [newConv] },
         .ok { matched_regno := matched.Regno
               match_id := mid
               expires_at := now + MATCH_EXPIRY_SECONDS })

/-- get_active_matches: all matches with expires_at > current_time. -/
def get_active_matches (db : DB) (current_time : Int) : List MatchRec :=
  db.matchesCol.filter (fun m => current_time < m.expires_at)

/-
  ## Conversation State Machine (services/conversation_service.py and
  routers/admin.py)
-/

/-- The body of request_conversation_service inside its outer try block:
404 when the match is missing, 410 when the match has expired, 403 when
the caller is not part of the match, 404 when no conversation exists for
the match, 403 unless the caller is the initiator, 409 unless the status
is still pending, else set status = requested and stamp requestedAt. -/
def request_conversation_inner (current_user : UserRec) (mid : Nat) (db : DB)
    (now : Int) : Except DomainError DB :=
  match findMatch db mid with
  | none => .error .notFound
  | some mtch =>
    if now > mtch.expires_at then .error .gone
    else if ¬ (current_user.Regno = mtch.user_1_regno ∨
               current_user.Regno = mtch.user_2_regno) then .error .forbidden
    else
      match get_conversation_by_match_id db.conversations mid with
      | none => .error .notFound
      | some conversation =>
        if conversation.initiatorId ≠ current_user.Regno then .error .forbidden
        else if conversation.status ≠ .pending then .error .conflict
        else
          .ok { db with
                conversations :=
                  updateConvById db.conversations conversation.convId
                    (fun c => { c with
                      status := .requested
                      requestedAt := some now }) }

/-- request_conversation_service: the whole body runs inside
`try ... except Exception: raise HTTPException(500)`, and FastAPI's
HTTPException is an Exception, so every domain error raised inside is
caught and re-raised as a generic 500. -/
def request_conversation_service (current_user : UserRec) (mid : Nat) (db : DB)
    (now : Int) : Except DomainError DB :=
  match request_conversation_inner current_user mid db now with
  | .ok db' => .ok db'
  | .error _ => .error .internalServerError

/-- The body of accept_conversation_service inside its outer try block:
404 missing match, 410 expired match, 403 non-participant, 404 missing
conversation, 403 unless the caller is the receiver, 409 when already
accepted, 400 unless the status is requested, else set status = accepted
and stamp acceptedAt. -/
def accept_conversation_inner (current_user : UserRec) (mid : Nat) (db : DB)
    (now : Int) : Except DomainError DB :=
  match findMatch db mid with
  | none => .error .notFound
  | some mtch =>
    if now > mtch.expires_at then .error .gone
    else if ¬ (current_user.Regno = mtch.user_1_regno ∨
               current_user.Regno = mtch.user_2_regno) then .error .forbidden
    else
      match get_conversation_by_match_id db.conversations mid with
      | none => .error .notFound
      | some conversation =>
        if conversation.receiverId ≠ current_user.Regno then .error .forbidden
        else if conversation.status = .accepted then .error .conflict
        else if conversation.status ≠ .requested then .error .invalidInput
        else
          .ok { db with
                conversations :=
                  updateConvById db.conversations conversation.convId
                    (fun c => { c with
                      status := .accepted
                      acceptedAt := some now }) }

/-- accept_conversation_service: same catch-all wrapping as request. -/
def accept_conversation_service (current_user : UserRec) (mid : Nat) (db : DB)
    (now : Int) : Except DomainError DB :=
  match accept_conversation_inner current_user mid db now with
  | .ok db' => .ok db'
  | .error _ => .error .internalServerError

/-- The body of reject_conversation_service inside its outer try block:
404 missing match, 410 expired match, 403 non-participant, 404 missing
conversation, 403 unless the caller is the receiver, 409 unless the
status is requested, else set status = rejected. -/
def reject_conversation_inner (current_user : UserRec) (mid : Nat) (db : DB)
    (now : Int) : Except DomainError DB :=
  match findMatch db mid with
  | none => .error .notFound
  | some mtch =>
    if now > mtch.expires_at then .error .gone
    else if ¬ (current_user.Regno = mtch.user_1_regno ∨
               current_user.Regno = mtch.user_2_regno) then .error .forbidden
    else
      match get_conversation_by_match_id db.conversations mid with
      | none => .error .notFound
      | some conversation =>
        if conversation.receiverId ≠ current_user.Regno then .error .forbidden
        else if conversation.status ≠ .requested then .error .conflict
        else
          .ok { db with
                conversations :=
                  updateConvById db.conversations conversation.convId
                    (fun c => { c with status := .rejected }) }

/-- reject_conversation_service: same catch-all wrapping as request. -/
def reject_conversation_service (current_user : UserRec) (mid : Nat) (db : DB)
    (now : Int) : Except DomainError DB :=
  match reject_conversation_inner current_user mid db now with
  | .ok db' => .ok db'
  | .error _ => .error .internalServerError

/-- routers/admin.py terminate_conversation: 404 when the conversation is
missing, otherwise unconditionally set status = terminated, stamp
terminatedAt, and pull the owning match's expires_at forward to now.
(Admin authorization is enforced by a dependency and not modelled.) -/
def terminate_conversation (db : DB) (cid : Nat) (now : Int) :
    Except DomainError DB :=
  match findConversation db cid with
  | none => .error .notFound
  | some conversation =>
    .ok { db with
          conversations :=
            updateConvById db.conversations cid
              (fun c => { c with
                status := .terminated
                terminatedAt := some now })
          matchesCol :=
            updateMatchById db.matchesCol conversation.matchId
              (fun m => { m with expires_at := now }) }

/-- conversation_service.update_conversation_status: update_one on
conversations filtered by matchId, setting only the status field. -/
def update_conversation_status : List Conversation → Nat → ConvStatus →
    List Conversation
  | [], _, _ => []
  | c :: rest, mid, s =>
      if c.matchId = mid then { c with status := s } :: rest
      else c :: update_conversation_status rest mid s

/-
  ## Expiry Sweeper (websocket_manager.check_and_broadcast_expiry_warnings)
-/

/-- WebSocket events the sweeper can broadcast. -/
inductive WsEvent where
  | match_expired (match_id : Nat)
  | conversation_status_update (match_id : Nat) (s : ConvStatus)
  | match_expiry_warning (match_id : Nat) (time_left_seconds : Int)
deriving DecidableEq, Repr

/-- The per-match body of the sweeper loop at clock tp: time_left =
expires_at - tp; if time_left <= 0, look up the conversation by match id
and, when it is accepted, set its status to expired and broadcast
match_expired then conversation_status_update, otherwise broadcast only
match_expired; else if time_left <= 1800 broadcast an expiry warning. -/
def processMatch (convs : List Conversation) (m : MatchRec) (tp : Int) :
    List Conversation × List WsEvent :=
  if m.expires_at - tp ≤ 0 then
    match get_conversation_by_match_id convs m.matchId with
    | some c =>
        if c.status = .accepted then
          (update_conversation_status convs m.matchId .expired,
           [WsEvent.match_expired m.matchId,
            WsEvent.conversation_status_update m.matchId .expired])
        else (convs, [WsEvent.match_expired m.matchId])
    | none => (convs, [WsEvent.match_expired m.matchId])
  else if m.expires_at - tp ≤ 1800 then
    (convs, [WsEvent.match_expiry_warning m.matchId (m.expires_at - tp)])
  else (convs, [])

/-- One tick of check_and_broadcast_expiry_warnings: list the active
matches (expires_at > clock) at clock tq, then process each in order at
clock tp (the Python body reads the clock again inside the loop, so
tq ≤ tp; the two coincide when the tick is modelled as instantaneous).
Returns the final conversations collection and the broadcast events in
emission order. -/
def check_and_broadcast_expiry_tick (db : DB) (tq tp : Int) :
    List Conversation × List WsEvent :=
  (get_active_matches db tq).foldl
    (fun acc m =>
      let r := processMatch acc.1 m tp
      (r.1, acc.2 ++ r.2))
    (db.conversations, [])

/-
  ## Realtime Broadcast Service (websocket_manager.ConnectionManager)
-/

/-- The in-memory connection registry: match id → connections,
user id → connections, plus the two reverse tracking maps.
WebSockets are modelled as Nat handles. -/
structure ConnManager where
  active_connections : List (String × List Nat)
  user_connections : List (String × List Nat)
  websocket_users : List (Nat × String)
  websocket_matches : List (Nat × String)
deriving DecidableEq, Repr

/-- Dictionary lookup in an index keyed by String. -/
def lookupIndex (l : List (String × List Nat)) (k : String) :
    Option (List Nat) :=
  (l.find? (fun p => p.1 == k)).map (fun p => p.2)

/-- Reverse-map lookup (websocket_users / websocket_matches .get). -/
def lookupTracking (l : List (Nat × String)) (ws : Nat) : Option String :=
  (l.find? (fun p => p.1 == ws)).map (fun p => p.2)

/-- The discard-then-prune step of ConnectionManager.disconnect on one
index: remove ws from the entry under key, and delete the entry when its
set becomes empty. -/
def discardAndPrune (l : List (String × List Nat)) (key : String) (ws : Nat) :
    List (String × List Nat) :=
  (l.map (fun p =>
    if p.1 = key then (p.1, p.2.filter (fun w => w ≠ ws)) else p)).filter
    (fun p => !(p.1 == key && p.2.isEmpty))

/-- ConnectionManager.disconnect: drop the websocket from both indexes
(pruning empty sets) and from both tracking maps. -/
def disconnect (mgr : ConnManager) (ws : Nat) : ConnManager :=
  let match_id := lookupTracking mgr.websocket_matches ws
  let user_id := lookupTracking mgr.websocket_users ws
  { active_connections :=
      match match_id with
      | some k => discardAndPrune mgr.active_connections k ws
      | none => mgr.active_connections
    user_connections :=
      match user_id with
      | some k => discardAndPrune mgr.user_connections k ws
      | none => mgr.user_connections
    websocket_users := mgr.websocket_users.filter (fun p => p.1 != ws)
    websocket_matches := mgr.websocket_matches.filter (fun p => p.1 != ws) }

/-- Outcome of one broadcast_to_match call: either the coroutine returns
with the updated registry and the list of websockets that received the
event, or it never returns (deadlock) having delivered to `delivered`. -/
inductive BroadcastOutcome where
  | completed (mgr : ConnManager) (delivered : List Nat)
  | deadlocked (delivered : List Nat)
deriving DecidableEq, Repr

/-- ConnectionManager.broadcast_to_match: return silently when the match
has no entry; otherwise, holding self._lock, send to every connection of
a copy of the set, collecting the ones whose send raised; then clean each
failed connection up via disconnect_async. disconnect_async re-acquires
self._lock, which this coroutine already holds, and asyncio.Lock is not
reentrant — so with at least one failed send the call deadlocks after
the delivery loop, before any removal. sendFails says which sockets'
send_text raises. -/
def broadcast_to_match (mgr : ConnManager) (match_id : String)
    (sendFails : Nat → Bool) : BroadcastOutcome :=
  match lookupIndex mgr.active_connections match_id with
  | none => .completed mgr []
  | some conns =>
    let delivered := conns.filter (fun ws => !sendFails ws)
    let disconnected := conns.filter (fun ws => sendFails ws)
    if disconnected.isEmpty then .completed mgr delivered
    else .deadlocked delivered

/-- The websockets an outcome delivered the event to. -/
def deliveredOf : BroadcastOutcome → List Nat
  | .completed _ d => d
  | .deadlocked d => d

/-
  ## Status ordering and the abstract transition relation
-/

/-- Rank in the ordering pending < requested < {accepted, rejected} <
{expired, terminated}. -/
def statusRank : ConvStatus → Nat
  | .pending => 0
  | .requested => 1
  | .accepted => 2
  | .rejected => 2
  | .expired => 3
  | .terminated => 3

/-- The five state-machine operations. -/
inductive ConvOp where
  | request
  | accept
  | reject
  | terminate
  | expire
deriving DecidableEq, Repr

/-- The status transition each operation performs when its status guard
holds (none = the operation raises and leaves the status alone), read off
request/accept/reject_conversation_service, the admin
terminate_conversation endpoint and the sweeper's accepted-only expiry.
The bridge theorems below tie each line to the embedded service. -/
def opStatusTransition : ConvOp → ConvStatus → Option ConvStatus
  | .request, s => if s = .pending then some .requested else none
  | .accept, s => if s = .requested then some .accepted else none
  | .reject, s => if s = .requested then some .rejected else none
  | .terminate, _ => some .terminated
  | .expire, s => if s = .accepted then some .expired else none

/-- Apply one operation to a status (a failed guard leaves it unchanged). -/
def applyOp (s : ConvStatus) (op : ConvOp) : ConvStatus :=
  (opStatusTransition op s).getD s

/-- Run a sequence of operations against a status. -/
def runOps (s : ConvStatus) (ops : List ConvOp) : ConvStatus :=
  ops.foldl applyOp s

/-
  ## Bridge lemmas: the embedded services implement opStatusTransition
-/

/-- A successful request ran on a pending conversation and set it to
requested (stamping requestedAt), exactly opStatusTransition .request. -/
theorem request_inner_ok_status (current_user : UserRec) (mid : Nat) (db : DB)
    (now : Int) (db' : DB)
    (h : request_conversation_inner current_user mid db now = .ok db') :
    ∃ c, get_conversation_by_match_id db.conversations mid = some c ∧
      c.status = .pending ∧
      db'.conversations =
        updateConvById db.conversations c.convId
          (fun x => { x with status := .requested, requestedAt := some now }) := by
  unfold request_conversation_inner at h
  cases hm : findMatch db mid with
  | none => simp only [hm] at h; injection h
  | some mtch =>
    simp only [hm] at h
    split_ifs at h with h1 h2
    cases hcv : get_conversation_by_match_id db.conversations mid with
    | none => simp only [hcv] at h; injection h
    | some conversation =>
      simp only [hcv] at h
      split_ifs at h with h3 h4
      push_neg at h4
      injection h with h
      subst h
      exact ⟨conversation, rfl, h4, rfl⟩

/-- A successful accept ran on a requested conversation and set it to
accepted (stamping acceptedAt), exactly opStatusTransition .accept. -/
theorem accept_inner_ok_status (current_user : UserRec) (mid : Nat) (db : DB)
    (now : Int) (db' : DB)
    (h : accept_conversation_inner current_user mid db now = .ok db') :
    ∃ c, get_conversation_by_match_id db.conversations mid = some c ∧
      c.status = .requested ∧
      db'.conversations =
        updateConvById db.conversations c.convId
          (fun x => { x with status := .accepted, acceptedAt := some now }) := by
  unfold accept_conversation_inner at h
  cases hm : findMatch db mid with
  | none => simp only [hm] at h; injection h
  | some mtch =>
    simp only [hm] at h
    split_ifs at h with h1 h2
    cases hcv : get_conversation_by_match_id db.conversations mid with
    | none => simp only [hcv] at h; injection h
    | some conversation =>
      simp only [hcv] at h
      split_ifs at h with h3 h4 h5
      push_neg at h5
      injection h with h
      subst h
      exact ⟨conversation, rfl, h5, rfl⟩

/-- A successful reject ran on a requested conversation and set it to
rejected, exactly opStatusTransition .reject. -/
theorem reject_inner_ok_status (current_user : UserRec) (mid : Nat) (db : DB)
    (now : Int) (db' : DB)
    (h : reject_conversation_inner current_user mid db now = .ok db') :
    ∃ c, get_conversation_by_match_id db.conversations mid = some c ∧
      c.status = .requested ∧
      db'.conversations =
        updateConvById db.conversations c.convId
          (fun x => { x with status := .rejected }) := by
  unfold reject_conversation_inner at h
  cases hm : findMatch db mid with
  | none => simp only [hm] at h; injection h
  | some mtch =>
    simp only [hm] at h
    split_ifs at h with h1 h2
    cases hcv : get_conversation_by_match_id db.conversations mid with
    | none => simp only [hcv] at h; injection h
    | some conversation =>
      simp only [hcv] at h
      split_ifs at h with h3 h4
      push_neg at h4
      injection h with h
      subst h
      exact ⟨conversation, rfl, h4, rfl⟩

/-- A successful terminate sets the conversation to terminated from any
status, exactly opStatusTransition .terminate. -/
theorem terminate_ok_status (db : DB) (cid : Nat) (now : Int) (db' : DB)
    (h : terminate_conversation db cid now = .ok db') :
    ∃ c, findConversation db cid = some c ∧
      db'.conversations =
        updateConvById db.conversations cid
          (fun x => { x with status := .terminated, terminatedAt := some now }) := by
  unfold terminate_conversation at h
  cases hcv : findConversation db cid with
  | none => simp only [hcv] at h; injection h
  | some conversation =>
    simp only [hcv] at h
    injection h with h
    subst h
    exact ⟨conversation, rfl, rfl⟩

/-- The sweeper's per-match body either leaves the conversations alone or
expires a conversation that was accepted, exactly
opStatusTransition .expire. -/
theorem processMatch_status_change (convs : List Conversation) (m : MatchRec)
    (tp : Int) :
    (processMatch convs m tp).1 = convs ∨
    ∃ c, get_conversation_by_match_id convs m.matchId = some c ∧
      c.status = .accepted ∧
      (processMatch convs m tp).1 =
        update_conversation_status convs m.matchId .expired := by
  unfold processMatch
  split_ifs with h1 h2
  · cases hcv : get_conversation_by_match_id convs m.matchId with
    | none => exact Or.inl rfl
    | some c =>
      by_cases hacc : c.status = .accepted
      · exact Or.inr ⟨c, rfl, hacc, by simp [hacc]⟩
      · left; simp [hacc]
  · exact Or.inl rfl
  · exact Or.inl rfl

/-- C4: for every Conversation and every sequence of the state-machine
operations request, accept, reject, terminate, expire, the status never
moves backward in the ordering pending < requested < {accepted, rejected}
< {expired, terminated}: its rank is monotone along any run. -/
theorem conversation_status_no_regression (s : ConvStatus) (ops : List ConvOp) :
    statusRank s ≤ statusRank (runOps s ops) := by
  induction ops generalizing s with
  | nil => exact le_refl _
  | cons op rest ih =>
      have hstep : statusRank s ≤ statusRank (applyOp s op) := by
        cases op <;> cases s <;> decide
      exact le_trans hstep (ih (applyOp s op))

/-- Witness for C4: a concrete run pending → requested → accepted →
expired never lowers the rank. -/
theorem conversation_status_no_regression_witness :
    statusRank .pending ≤
      statusRank (runOps .pending [.request, .accept, .expire, .terminate]) :=
  conversation_status_no_regression .pending [.request, .accept, .expire, .terminate]

/-
  ## The sweeper misses already-expired matches (C1)
-/

/-- A match that expired one second before the tick (Scenario-D shape). -/
def c1Match : MatchRec :=
  { matchId := 1, user_1_regno := "A", user_2_regno := "B",
    created_at := 0, expires_at := 99 }

/-- The owning conversation, still accepted when the tick runs. -/
def c1Conv : Conversation :=
  { convId := 1, matchId := 1, initiatorId := "A", receiverId := "B",
    status := .accepted, isBlocked := false, createdAt := 0 }

/-- Database holding exactly the expired match and its accepted
conversation. -/
def c1DB : DB :=
  { user_details := [], matchesCol := [c1Match], conversations := [c1Conv],
    messages := [], message_reports := [] }

/-- C1: the tick at time 100 must, per the claim, transition the accepted
conversation of the match expired at 99 to expired and broadcast
match_expired — but get_active_matches keeps only expires_at > now, so
the match is never scanned: the conversation stays accepted and no event
at all is broadcast. -/
theorem check_expiry_skips_already_expired_match :
    c1Match.expires_at ≤ 100 ∧ c1Conv.status = .accepted ∧
    check_and_broadcast_expiry_tick c1DB 100 100 = ([c1Conv], []) :=
  ⟨by decide, rfl, rfl⟩

/-- A live match (expires_at - tp > 0) contributes at most a warning and
never touches the conversations. -/
theorem processMatch_live (convs : List Conversation) (m : MatchRec) (tp : Int)
    (h : ¬ m.expires_at - tp ≤ 0) :
    (processMatch convs m tp).1 = convs ∧
    ∀ e ∈ (processMatch convs m tp).2,
      ∃ mid t, e = WsEvent.match_expiry_warning mid t := by
  unfold processMatch
  rw [if_neg h]
  split_ifs with h2
  · refine ⟨rfl, ?_⟩
    intro e he
    simp only [List.mem_singleton] at he
    exact ⟨m.matchId, m.expires_at - tp, he⟩
  · exact ⟨rfl, by intro e he; simp at he⟩

/-- The sweeper fold over live-only matches changes no conversation and
emits only warnings. -/
theorem tick_fold_only_warns (ms : List MatchRec) (tp : Int)
    (convs : List Conversation) (acc : List WsEvent)
    (hms : ∀ m ∈ ms, ¬ m.expires_at - tp ≤ 0)
    (hacc : ∀ e ∈ acc, ∃ mid t, e = WsEvent.match_expiry_warning mid t) :
    (ms.foldl (fun a m =>
        let r := processMatch a.1 m tp
        (r.1, a.2 ++ r.2)) (convs, acc)).1 = convs ∧
    ∀ e ∈ (ms.foldl (fun a m =>
        let r := processMatch a.1 m tp
        (r.1, a.2 ++ r.2)) (convs, acc)).2,
      ∃ mid t, e = WsEvent.match_expiry_warning mid t := by
  induction ms generalizing convs acc with
  | nil => exact ⟨rfl, hacc⟩
  | cons m rest ih =>
    have hm := hms m (List.mem_cons_self _ _)
    have hp := processMatch_live convs m tp hm
    simp only [List.foldl_cons]
    rw [hp.1]
    exact ih convs (acc ++ (processMatch convs m tp).2)
      (fun m' hm' => hms m' (List.mem_cons_of_mem _ hm'))
      (fun e he => by
        rcases List.mem_append.mp he with h' | h'
        · exact hacc e h'
        · exact hp.2 e h')

/-- When the tick is instantaneous (both clock reads coincide), the
expires_at > now filter of get_active_matches makes the time_left <= 0
branch unreachable: no conversation is ever expired by the sweep and at
most warnings are broadcast. -/
theorem instantaneous_tick_only_warns (db : DB) (now : Int) :
    (check_and_broadcast_expiry_tick db now now).1 = db.conversations ∧
    ∀ e ∈ (check_and_broadcast_expiry_tick db now now).2,
      ∃ mid t, e = WsEvent.match_expiry_warning mid t := by
  unfold check_and_broadcast_expiry_tick
  apply tick_fold_only_warns
  · intro m hm
    unfold get_active_matches at hm
    have := (List.mem_filter.mp hm).2
    have hlt : now < m.expires_at := by simpa using this
    omega
  · intro e he
    simp at he

/-
  ## The broadcast cleanup deadlock (C5)
-/

/-- A registry with three live connections on match m1 (websocket 1 and 3
belong to user A, websocket 2 to user B). -/
def c5Mgr : ConnManager :=
  { active_connections := [("m1", [1, 2, 3])]
    user_connections := [("A", [1, 3]), ("B", [2])]
    websocket_users := [(1, "A"), (2, "B"), (3, "A")]
    websocket_matches := [(1, "m1"), (2, "m1"), (3, "m1")] }

/-- C5: when sending to websocket 2 fails during broadcast_to_match, the
event is still delivered to websockets 1 and 3 (isolation holds), but the
cleanup path re-acquires the non-reentrant lock the coroutine already
holds: the call deadlocks, so the failing connection is never removed
from either index and the broadcast call never completes. -/
theorem broadcast_failure_deadlocks_before_cleanup :
    broadcast_to_match c5Mgr "m1" (fun ws => ws == 2) =
      .deadlocked [1, 3] := by
  rfl

/-- Delivery isolation: every registered connection whose send succeeds
receives the event, whatever happens to the others. -/
theorem broadcast_delivers_to_live (mgr : ConnManager) (match_id : String)
    (sendFails : Nat → Bool) (conns : List Nat)
    (h : lookupIndex mgr.active_connections match_id = some conns)
    (ws : Nat) (hws : ws ∈ conns) (hok : sendFails ws = false) :
    ws ∈ deliveredOf (broadcast_to_match mgr match_id sendFails) := by
  unfold broadcast_to_match
  simp only [h]
  split_ifs with hd
  · simp [deliveredOf, List.mem_filter, hws, hok]
  · simp [deliveredOf, List.mem_filter, hws, hok]

/-
  ## Domain errors are downgraded to 500 by the catch-all (C3)
-/

/-- C3: every domain error (NotFound, Forbidden, Conflict, Expired,
InvalidInput) raised inside request/accept/reject_conversation_service is
swallowed by the surrounding `except Exception` and re-raised as a
generic internal server error — the caller never sees the domain error
verbatim. -/
theorem conversation_domain_errors_downgraded :
    (∀ (u : UserRec) (mid : Nat) (db : DB) (now : Int) (e : DomainError),
        request_conversation_inner u mid db now = .error e →
        request_conversation_service u mid db now = .error .internalServerError) ∧
    (∀ (u : UserRec) (mid : Nat) (db : DB) (now : Int) (e : DomainError),
        accept_conversation_inner u mid db now = .error e →
        accept_conversation_service u mid db now = .error .internalServerError) ∧
    (∀ (u : UserRec) (mid : Nat) (db : DB) (now : Int) (e : DomainError),
        reject_conversation_inner u mid db now = .error e →
        reject_conversation_service u mid db now = .error .internalServerError) := by
  refine ⟨?_, ?_, ?_⟩ <;>
    · intro u mid db now e h
      simp only [request_conversation_service, accept_conversation_service,
        reject_conversation_service, h]

/-- The empty database. -/
def emptyDB : DB :=
  { user_details := [], matchesCol := [], conversations := [],
    messages := [], message_reports := [] }

/-- A concrete user. -/
def userA : UserRec :=
  { Regno := "A", Name := "A", gender := "M", isMatchmaking := true,
    last_matchmaking_time := none }

/-- Witness for C3: on a missing match the inner logic raises NotFound
but the service surfaces a generic 500. -/
theorem conversation_domain_errors_downgraded_witness :
    request_conversation_inner userA 5 emptyDB 0 = .error .notFound ∧
    request_conversation_service userA 5 emptyDB 0 =
      .error .internalServerError :=
  ⟨rfl, conversation_domain_errors_downgraded.1 userA 5 emptyDB 0 .notFound rfl⟩

/-
  ## The message-send gate (C2)
-/

/-- C2: for an existing conversation, send_message errors exactly when
the status is not accepted, or the conversation is blocked, or more than
4 hours have passed since its creation, or the sender is not a
participant; otherwise it persists the message with read = false and
returns it. -/
theorem send_message_gate (db : DB) (cid : Nat) (sender : UserRec)
    (text : String) (now : Int) (conversation : Conversation)
    (hfind : findConversation db cid = some conversation) :
    ((∃ e, send_message db cid sender text now = .error e) ↔
      (conversation.status ≠ .accepted ∨ conversation.isBlocked = true ∨
       now > conversation.createdAt + CONVERSATION_EXPIRY_SECONDS ∨
       ¬ (conversation.initiatorId = sender.Regno ∨
          conversation.receiverId = sender.Regno))) ∧
    (∀ db' m, send_message db cid sender text now = .ok (db', m) →
      m.read = false ∧ db'.messages = db.messages ++ [m]) := by
  by_cases hpart : conversation.initiatorId = sender.Regno ∨
      conversation.receiverId = sender.Regno
  case neg =>
    have hsend : send_message db cid sender text now = .error .forbidden := by
      unfold send_message validate_conversation_participant validateConvChecks
      simp only [hfind]
      rw [if_pos hpart]
    constructor
    · exact iff_of_true ⟨.forbidden, hsend⟩ (Or.inr (Or.inr (Or.inr hpart)))
    · intro db' m h
      rw [hsend] at h
      injection h
  case pos =>
  by_cases hacc : conversation.status = .accepted
  case neg =>
    have hsend : send_message db cid sender text now = .error .forbidden := by
      unfold send_message validate_conversation_participant validateConvChecks
      simp only [hfind]
      rw [if_neg (not_not_intro hpart), if_pos hacc]
    constructor
    · exact iff_of_true ⟨.forbidden, hsend⟩ (Or.inl hacc)
    · intro db' m h
      rw [hsend] at h
      injection h
  case pos =>
  by_cases hexp : now > conversation.createdAt + CONVERSATION_EXPIRY_SECONDS
  case pos =>
    have hsend : send_message db cid sender text now = .error .forbidden := by
      unfold send_message validate_conversation_participant validateConvChecks
      simp only [hfind]
      rw [if_neg (not_not_intro hpart), if_neg (not_not_intro hacc), if_pos hexp]
    constructor
    · exact iff_of_true ⟨.forbidden, hsend⟩ (Or.inr (Or.inr (Or.inl hexp)))
    · intro db' m h
      rw [hsend] at h
      injection h
  case neg =>
  by_cases hblk : conversation.isBlocked = true
  case pos =>
    have hsend : send_message db cid sender text now = .error .forbidden := by
      unfold send_message validate_conversation_participant validateConvChecks
      simp only [hfind]
      rw [if_neg (not_not_intro hpart), if_neg (not_not_intro hacc), if_neg hexp]
      show (if conversation.isBlocked then _ else _) = _
      rw [hblk]
      rfl
    constructor
    · exact iff_of_true ⟨.forbidden, hsend⟩ (Or.inr (Or.inl hblk))
    · intro db' m h
      rw [hsend] at h
      injection h
  case neg =>
    have hblk' : conversation.isBlocked = false := by
      cases hb : conversation.isBlocked
      · rfl
      · exact absurd hb hblk
    have hsend : send_message db cid sender text now =
        .ok ({ db with
               messages := db.messages ++
                 [{ msgId := db.messages.length
                    conversation_id := cid
                    sender_id := sender.Regno
                    receiver_id :=
                      if conversation.initiatorId = sender.Regno then
                        conversation.receiverId
                      else conversation.initiatorId
                    text := text
                    timestamp := now
                    read := false }]
               conversations :=
                 updateConvById db.conversations cid
                   (fun c => { c with
                     last_message_at := some now
                     last_message_text := some (text.take 100) }) },
             { msgId := db.messages.length
               conversation_id := cid
               sender_id := sender.Regno
               receiver_id :=
                 if conversation.initiatorId = sender.Regno then
                   conversation.receiverId
                 else conversation.initiatorId
               text := text
               timestamp := now
               read := false }) := by
      unfold send_message validate_conversation_participant validateConvChecks
      simp only [hfind]
      rw [if_neg (not_not_intro hpart), if_neg (not_not_intro hacc), if_neg hexp]
      show (if conversation.isBlocked then _ else _) = _
      rw [hblk']
      rfl
    constructor
    · refine iff_of_false ?_ ?_
      · rintro ⟨e, he⟩
        rw [hsend] at he
        injection he
      · rintro (h | h | h | h)
        · exact h hacc
        · rw [hblk'] at h; cases h
        · exact hexp h
        · exact h hpart
    · intro db' m h
      rw [hsend] at h
      injection h with h
      rw [Prod.mk.injEq] at h
      obtain ⟨h1, h2⟩ := h
      subst h1
      subst h2
      exact ⟨rfl, rfl⟩

/-- Conversation for the send_message witness. -/
def c2Conv : Conversation :=
  { convId := 1, matchId := 1, initiatorId := "A", receiverId := "B",
    status := .accepted, isBlocked := false, createdAt := 0 }

/-- Database for the send_message witness. -/
def c2DB : DB :=
  { user_details := [], matchesCol := [], conversations := [c2Conv],
    messages := [], message_reports := [] }

/-- Sender for the send_message witness. -/
def c2Sender : UserRec :=
  { Regno := "A", Name := "Alice", gender := "M", isMatchmaking := true,
    last_matchmaking_time := none }

/-- The message the witness send persists. -/
def c2Msg : Message :=
  { msgId := 0, conversation_id := 1, sender_id := "A", receiver_id := "B",
    text := "hi", timestamp := 10, read := false }

/-- The database after the witness send. -/
def c2DBafter : DB :=
  { user_details := [], matchesCol := []
    conversations :=
      [{ c2Conv with last_message_at := some 10, last_message_text := some "hi" }]
    messages := [c2Msg], message_reports := [] }

set_option maxRecDepth 10000 in
/-- Witness for C2: a concrete successful send persists the message with
read = false. -/
theorem send_message_gate_witness :
    c2Msg.read = false ∧ c2DBafter.messages = c2DB.messages ++ [c2Msg] :=
  (send_message_gate c2DB 1 c2Sender "hi" 10 c2Conv rfl).2 c2DBafter c2Msg rfl

/-
  ## Reads are expiry-gated but not block-gated (C10)
-/

/-- C10: a participant of an accepted conversation can no longer fetch
its messages once more than 4 hours have passed since the conversation
was created — while, inside the window, fetching succeeds whatever the
value of isBlocked (blocked history stays readable). -/
theorem get_messages_expiry_gate (db : DB) (cid : Nat) (user : UserRec)
    (now : Int) (limit : Nat) (conversation : Conversation)
    (hfind : findConversation db cid = some conversation)
    (hpart : conversation.initiatorId = user.Regno ∨
             conversation.receiverId = user.Regno)
    (hacc : conversation.status = .accepted) :
    (now > conversation.createdAt + CONVERSATION_EXPIRY_SECONDS →
      get_messages db cid user now limit = .error .forbidden) ∧
    (¬ now > conversation.createdAt + CONVERSATION_EXPIRY_SECONDS →
      get_messages db cid user now limit =
        .ok ({ db with messages := db.messages.map (markRead cid user.Regno) },
             (sortByTimestamp (db.messages.filter
               (fun m => m.conversation_id == cid))).take limit)) := by
  constructor
  · intro hexp
    unfold get_messages validate_conversation_participant validateConvChecks
    simp only [hfind]
    rw [if_neg (not_not_intro hpart), if_neg (not_not_intro hacc), if_pos hexp]
  · intro hexp
    unfold get_messages validate_conversation_participant validateConvChecks
    simp only [hfind]
    rw [if_neg (not_not_intro hpart), if_neg (not_not_intro hacc), if_neg hexp]

/-- A blocked but accepted conversation for the C10 witness. -/
def c10Conv : Conversation :=
  { convId := 1, matchId := 1, initiatorId := "A", receiverId := "B",
    status := .accepted, isBlocked := true, createdAt := 0 }

/-- Database for the C10 witness. -/
def c10DB : DB :=
  { user_details := [], matchesCol := [], conversations := [c10Conv],
    messages := [], message_reports := [] }

/-- Reader for the C10 witness. -/
def c10User : UserRec :=
  { Regno := "B", Name := "Bea", gender := "F", isMatchmaking := true,
    last_matchmaking_time := none }

/-- Witness for C10: 14500 seconds after creation (past the 14400-second
window) the fetch fails even for the receiver of this accepted (and
blocked) conversation. -/
theorem get_messages_expiry_gate_witness :
    get_messages c10DB 1 c10User 14500 200 = .error .forbidden :=
  (get_messages_expiry_gate c10DB 1 c10User 14500 200 c10Conv rfl
    (Or.inr rfl) rfl).1 (by decide)

/-
  ## Duplicate reports (C9)
-/

/-- The reported message for the C9 scenario (sent by A to B). -/
def c9Msg : Message :=
  { msgId := 1, conversation_id := 1, sender_id := "A", receiver_id := "B",
    text := "hi", timestamp := 0, read := true }

/-- The existing report by B for that message. -/
def c9Report : MessageReport :=
  { reportId := 0, message_id := 1, conversation_id := 1, reporter_id := "B",
    reported_user_id := "A", reason := "spam", reported_at := 5,
    status := "pending" }

/-- The owning conversation after an admin terminated it. -/
def c9ConvTerminated : Conversation :=
  { convId := 1, matchId := 1, initiatorId := "A", receiverId := "B",
    status := .terminated, isBlocked := true, createdAt := 0,
    terminatedAt := some 10 }

/-- Database where B's report already exists but the conversation has
left the accepted status. -/
def c9DB : DB :=
  { user_details := [], matchesCol := [],
    conversations := [c9ConvTerminated], messages := [c9Msg],
    message_reports := [c9Report] }

/-- The reporter B. -/
def c9UserB : UserRec :=
  { Regno := "B", Name := "Bea", gender := "F", isMatchmaking := true,
    last_matchmaking_time := none }

/-- Counterexample to C9 as stated: B's report for message 1 already
exists, yet a further report() call fails with Forbidden (the
conversation-status check fires first once the conversation is no longer
accepted), not with Conflict. -/
theorem report_dup_not_always_conflict :
    hasReport c9DB 1 "B" = true ∧
    report_message c9DB 1 c9UserB "spam" 20 = .error .forbidden ∧
    report_message c9DB 1 c9UserB "spam" 20 ≠ .error .conflict := by
  refine ⟨rfl, rfl, ?_⟩
  intro h
  have h0 : report_message c9DB 1 c9UserB "spam" 20 = .error .forbidden := rfl
  rw [h0] at h
  injection h with h
  cases h

/-- C9 (amended): when a report by the same reporter for the same message
already exists, a further report() call always fails and never persists a
second report; the failure is Conflict exactly when the message's
conversation still has status accepted (otherwise the earlier
status check fires, e.g. with Forbidden). -/
theorem report_message_duplicate (db : DB) (mid : Nat) (reporter : UserRec)
    (reason : String) (now : Int) (msg : Message)
    (hmsg : findMessage db mid = some msg)
    (hdup : hasReport db mid reporter.Regno = true) :
    (∀ db' r, report_message db mid reporter reason now ≠ .ok (db', r)) ∧
    (∀ conversation, msg.receiver_id = reporter.Regno →
      findConversation db msg.conversation_id = some conversation →
      conversation.status = .accepted →
      report_message db mid reporter reason now = .error .conflict) := by
  constructor
  · intro db' r hok
    unfold report_message at hok
    simp only [hmsg] at hok
    by_cases h1 : msg.receiver_id ≠ reporter.Regno
    · rw [if_pos h1] at hok
      injection hok
    · rw [if_neg h1] at hok
      cases hcv : findConversation db msg.conversation_id with
      | none => simp only [hcv] at hok; injection hok
      | some conversation =>
        simp only [hcv] at hok
        by_cases h2 : conversation.status ≠ .accepted
        · rw [if_pos h2] at hok
          injection hok
        · rw [if_neg h2, if_pos hdup] at hok
          injection hok
  · intro conversation hrecv hconv hacc
    unfold report_message
    simp only [hmsg]
    rw [if_neg (not_not_intro hrecv)]
    simp only [hconv]
    rw [if_neg (not_not_intro hacc), if_pos hdup]

/-- The C9 conversation while still accepted. -/
def c9ConvAccepted : Conversation :=
  { convId := 1, matchId := 1, initiatorId := "A", receiverId := "B",
    status := .accepted, isBlocked := false, createdAt := 0 }

/-- Same database as c9DB but with the conversation still accepted. -/
def c9AccDB : DB :=
  { user_details := [], matchesCol := [],
    conversations := [c9ConvAccepted], messages := [c9Msg],
    message_reports := [c9Report] }

/-- Witness for the amended C9: on the still-accepted conversation a
duplicate report fails with Conflict. -/
theorem report_message_duplicate_witness :
    report_message c9AccDB 1 c9UserB "spam" 20 = .error .conflict :=
  (report_message_duplicate c9AccDB 1 c9UserB "spam" 20 c9Msg rfl rfl).2
    c9ConvAccepted rfl rfl rfl

/-
  ## Matchmaking: attempt consumption and the frame of a success (C6, C7)
-/

/-- C6: off cooldown with an empty candidate pool, find_match stamps the
caller's last_matchmaking_time to now before failing NotFound, so an
immediate repeat (any time less than the 4-hour cooldown later, with the
caller's record reloaded) fails with TooManyRequests instead. -/
theorem find_match_empty_pool_consumes_attempt (u : UserRec) (db : DB)
    (now now2 : Int) (pick pick2 : Nat)
    (helig : check_matchmaking_cooldown_service u now = .eligible)
    (hpool : db.user_details.filter (matchQuery u) = [])
    (hlt : now2 - now < MATCHMAKING_COOLDOWN_SECONDS) :
    (find_match_service u db now pick).2 = .error .notFound ∧
    (find_match_service u db now pick).1.user_details =
      stampFirstUser db.user_details u.Regno now ∧
    (find_match_service { u with last_matchmaking_time := some now }
      (find_match_service u db now pick).1 now2 pick2).2 =
      .error .tooManyRequests := by
  have h1 : find_match_service u db now pick =
      ({ db with user_details := stampFirstUser db.user_details u.Regno now },
       .error .notFound) := by
    unfold find_match_service
    simp only [helig, hpool]
  have h2 : check_matchmaking_cooldown_service
      { u with last_matchmaking_time := some now } now2 =
      .cooldown (MATCHMAKING_COOLDOWN_SECONDS - (now2 - now)) := by
    unfold check_matchmaking_cooldown_service
    simp only []
    rw [if_pos hlt]
  refine ⟨by rw [h1], by rw [h1], ?_⟩
  unfold find_match_service
  simp only [h2]

/-- A lone user off cooldown, with nobody else registered. -/
def c6User : UserRec :=
  { Regno := "U", Name := "U", gender := "M", isMatchmaking := true,
    last_matchmaking_time := none }

/-- Database holding only that user. -/
def c6DB : DB :=
  { user_details := [c6User], matchesCol := [], conversations := [],
    messages := [], message_reports := [] }

/-- Witness for C6 at a concrete state: NotFound first, the stamp is
written, and five seconds later the repeat gets TooManyRequests. -/
theorem find_match_empty_pool_consumes_attempt_witness :
    (find_match_service c6User c6DB 0 0).2 = .error .notFound ∧
    (find_match_service c6User c6DB 0 0).1.user_details =
      stampFirstUser c6DB.user_details c6User.Regno 0 ∧
    (find_match_service { c6User with last_matchmaking_time := some 0 }
      (find_match_service c6User c6DB 0 0).1 5 0).2 =
      .error .tooManyRequests :=
  find_match_empty_pool_consumes_attempt c6User c6DB 0 5 0 0 rfl rfl (by decide)

/-- stampFirstUser never touches a record whose Regno differs from the
stamped one. -/
theorem stampFirstUser_preserves (l : List UserRec) (regno : String)
    (now : Int) (v : UserRec) (hv : v ∈ l) (hne : v.Regno ≠ regno) :
    v ∈ stampFirstUser l regno now := by
  induction l with
  | nil => cases hv
  | cons x rest ih =>
    unfold stampFirstUser
    rcases List.mem_cons.mp hv with rfl | hv'
    · rw [if_neg hne]
      exact List.mem_cons_self _ _
    · split_ifs with hx
      · exact List.mem_cons_of_mem _ hv'
      · exact List.mem_cons_of_mem _ (ih hv')

/-- C7: a successful find_match returns a candidate different from the
initiator, rewrites the user collection only through stampFirstUser on
the initiator's Regno (which touches only that one record's
last_matchmaking_time), and therefore leaves every other user's record —
the matched candidate's included — exactly as it was. -/
theorem find_match_success_frame (u : UserRec) (db : DB) (now : Int)
    (pick : Nat) (db' : DB) (out : FindMatchOutcome)
    (h : find_match_service u db now pick = (db', .ok out)) :
    out.matched_regno ≠ u.Regno ∧
    db'.user_details = stampFirstUser db.user_details u.Regno now ∧
    ∀ v ∈ db.user_details, v.Regno ≠ u.Regno → v ∈ db'.user_details := by
  unfold find_match_service at h
  cases hc : check_matchmaking_cooldown_service u now with
  | cooldown r =>
    simp only [hc] at h
    have := congrArg Prod.snd h
    injection this
  | eligible =>
    simp only [hc] at h
    cases hf : db.user_details.filter (matchQuery u) with
    | nil =>
      simp only [hf] at h
      have := congrArg Prod.snd h
      injection this
    | cons c cs =>
      simp only [hf] at h
      rw [Prod.mk.injEq] at h
      obtain ⟨h1, h2⟩ := h
      injection h2 with h2
      subst h1
      subst h2
      have hmem : (c :: cs).getD (pick % (c :: cs).length) c ∈ c :: cs := by
        have hlen : pick % (c :: cs).length < (c :: cs).length :=
          Nat.mod_lt _ (by simp)
        rw [List.getD_eq_getElem _ _ hlen]
        exact List.getElem_mem hlen
      have hq : matchQuery u ((c :: cs).getD (pick % (c :: cs).length) c)
          = true := by
        have hall : ∀ v ∈ (c :: cs), matchQuery u v = true := by
          intro v hv
          rw [← hf] at hv
          exact (List.mem_filter.mp hv).2
        exact hall _ hmem
      unfold matchQuery at hq
      simp only [Bool.and_eq_true, bne_iff_ne, ne_eq] at hq
      refine ⟨hq.1.1, rfl, ?_⟩
      intro v hv hvne
      exact stampFirstUser_preserves db.user_details u.Regno now v hv hvne

/-
  ## Fetch marks exactly the receiver's messages as read (C8)
-/

/-- C8: after a successful fetch by a participant, every message of the
conversation addressed to the fetching user is read, and every message
the fetching user sent is still present unchanged (messages are
well-formed: no message is addressed to its own sender). -/
theorem get_messages_marks_receiver_read (db : DB) (cid : Nat)
    (user : UserRec) (now : Int) (limit : Nat) (db' : DB)
    (msgs : List Message)
    (hwf : ∀ m ∈ db.messages, m.sender_id ≠ m.receiver_id)
    (h : get_messages db cid user now limit = .ok (db', msgs)) :
    (∀ m ∈ db'.messages, m.conversation_id = cid →
      m.receiver_id = user.Regno → m.read = true) ∧
    (∀ m ∈ db.messages, m.sender_id = user.Regno → m ∈ db'.messages) := by
  unfold get_messages at h
  cases hv : validate_conversation_participant db cid user.Regno now with
  | error e => rw [hv] at h; injection h
  | ok c =>
    rw [hv] at h
    injection h with h
    rw [Prod.mk.injEq] at h
    obtain ⟨h1, h2⟩ := h
    subst h1
    constructor
    · intro m hm hcid hrecv
      have hm' : m ∈ db.messages.map (markRead cid user.Regno) := hm
      rcases List.mem_map.mp hm' with ⟨m₀, hm₀, rfl⟩
      by_cases hc : m₀.conversation_id = cid ∧ m₀.receiver_id = user.Regno ∧
          m₀.read = false
      · unfold markRead
        rw [if_pos hc]
      · have heq : markRead cid user.Regno m₀ = m₀ := by
          unfold markRead
          rw [if_neg hc]
        rw [heq] at hcid hrecv ⊢
        cases hread : m₀.read with
        | true => rfl
        | false => exact absurd ⟨hcid, hrecv, hread⟩ hc
    · intro m hm hsend
      have hne : m.receiver_id ≠ user.Regno := by
        intro hre
        exact hwf m hm (hsend.trans hre.symm)
      have heq : markRead cid user.Regno m = m := by
        unfold markRead
        rw [if_neg]
        rintro ⟨-, hb, -⟩
        exact hne hb
      exact List.mem_map.mpr ⟨m, hm, heq⟩

/-- The unread message A sent to B for the C8 witness. -/
def c8Msg0 : Message :=
  { msgId := 0, conversation_id := 1, sender_id := "A", receiver_id := "B",
    text := "hey", timestamp := 1, read := false }

/-- The accepted conversation for the C8 witness. -/
def c8Conv : Conversation :=
  { convId := 1, matchId := 1, initiatorId := "A", receiverId := "B",
    status := .accepted, isBlocked := false, createdAt := 0 }

/-- Database for the C8 witness. -/
def c8DB : DB :=
  { user_details := [], matchesCol := [], conversations := [c8Conv],
    messages := [c8Msg0], message_reports := [] }

/-- The fetching receiver B. -/
def c8UserB : UserRec :=
  { Regno := "B", Name := "Bea", gender := "F", isMatchmaking := true,
    last_matchmaking_time := none }

/-- The database after B's fetch: the message is marked read. -/
def c8DBres : DB :=
  { c8DB with messages := [{ c8Msg0 with read := true }] }

set_option maxRecDepth 10000 in
/-- Witness for C8: applying the theorem to the concrete fetch shows the
marked copy of the message is read. -/
theorem get_messages_marks_receiver_read_witness :
    ({ c8Msg0 with read := true } : Message).read = true :=
  (get_messages_marks_receiver_read c8DB 1 c8UserB 10 200 c8DBres [c8Msg0]
    (by decide) rfl).1 { c8Msg0 with read := true } (by decide) (by decide)
    (by decide)

/-- The initiator for the C7 witness. -/
def c7User : UserRec :=
  { Regno := "U", Name := "U", gender := "M", isMatchmaking := true,
    last_matchmaking_time := none }

/-- The sole candidate for the C7 witness. -/
def c7Cand : UserRec :=
  { Regno := "V", Name := "V", gender := "F", isMatchmaking := true,
    last_matchmaking_time := none }

/-- Database with the initiator and one eligible candidate. -/
def c7DB : DB :=
  { user_details := [c7User, c7Cand], matchesCol := [], conversations := [],
    messages := [], message_reports := [] }

/-- The state after the witness call. -/
def c7DBres : DB := (find_match_service c7User c7DB 0 0).1

/-- The payload of the witness call. -/
def c7Out : FindMatchOutcome :=
  { matched_regno := "V", match_id := 0,
    expires_at := MATCH_EXPIRY_SECONDS }

/-- Witness for C7: on the concrete success the matched user differs from
the initiator and the candidate's record sits unchanged in the new
database. -/
theorem find_match_success_frame_witness :
    c7Out.matched_regno ≠ c7User.Regno ∧ c7Cand ∈ c7DBres.user_details :=
  ⟨(find_match_success_frame c7User c7DB 0 0 c7DBres c7Out rfl).1,
   (find_match_success_frame c7User c7DB 0 0 c7DBres c7Out rfl).2.2
     c7Cand (by decide) (by decide)⟩

end ConfessIt
